import Mathlib

/-!
# Verification of the snake3d cube-surface game core

Shallow embedding of the game logic in `src/game.rs`: the cube topology
resolver `calculate_next_position`, the food spawner `spawn_food`, and the
per-tick state machine `update`, together with theorems about the
properties the design document states for them.

Modelling conventions:
* Rust `i32` coordinates and the grid size become `Int` (the game never
  approaches `i32` overflow: coordinates stay within `[-1, grid_size]`).
* Rust `u32` counters (`score`, `high_score`, `food_eaten_count`) become
  `Nat`; in debug builds `u32` overflow is a panic, not a wrap, so
  successful executions agree with unbounded naturals.
* The `VecDeque<Position>` body becomes a `List Position` with the head of
  the list as the snake's head (`push_front` = `cons`, `back` = `getLast`,
  `pop_back` = `dropLast`).
* The `getrandom` byte source becomes an explicit list of byte triples,
  one triple per `spawn_food` attempt; exhausting the list models running
  out of fuel for the retry recursion and yields `none`.  A `.unwrap()`
  on an empty body is likewise modelled as `none`.
-/

inductive Face where
  | Front
  | Back
  | Left
  | Right
  | Top
  | Bottom
deriving DecidableEq, Repr

inductive Direction where
  | Up
  | Down
  | Left
  | Right
deriving DecidableEq, Repr

structure Position where
  face : Face
  u : Int
  v : Int
deriving DecidableEq, Repr

structure GameConfig where
  grid_size : Int
deriving DecidableEq, Repr

structure Snake where
  body : List Position
  direction : Direction
  next_direction : Direction
deriving DecidableEq, Repr

inductive GameEvent where
  | None
  | Eat
  | EatPrize
  | GameOver
deriving DecidableEq, Repr

structure GameState where
  snake : Snake
  food : Position
  is_prize : Bool
  score : Nat
  high_score : Nat
  food_eaten_count : Nat
  game_over : Bool
  config : GameConfig
deriving DecidableEq, Repr

/-- The one-cell step of `calculate_next_position` before the bounds check:
`Up` is `v += 1`, `Down` is `v -= 1`, `Left` is `u -= 1`, `Right` is
`u += 1`. -/
def stepUV (u v : Int) (dir : Direction) : Int × Int :=
  match dir with
  | Direction.Up => (u, v + 1)
  | Direction.Down => (u, v - 1)
  | Direction.Left => (u - 1, v)
  | Direction.Right => (u + 1, v)

/-- `GameState::calculate_next_position` from `src/game.rs`, with the grid
size passed explicitly (the Rust method reads it from `self.config`).
The stepped coordinates are taken out of `stepUV`, and each arm of the
24-entry transition table assigns exactly what the corresponding Rust
match arm assigns, reading the already-stepped `u`/`v`. -/
def calculate_next_position (n : Int) (pos : Position) (dir : Direction) :
    Position × Direction :=
  let s := stepUV pos.u pos.v dir
  let u := s.1
  let v := s.2
  if u < 0 ∨ u ≥ n ∨ v < 0 ∨ v ≥ n then
    match pos.face, dir with
    -- Front transitions
    | Face.Front, Direction.Up => (⟨Face.Top, u, 0⟩, dir)
    | Face.Front, Direction.Down => (⟨Face.Bottom, u, n - 1⟩, dir)
    | Face.Front, Direction.Left => (⟨Face.Left, n - 1, v⟩, dir)
    | Face.Front, Direction.Right => (⟨Face.Right, 0, v⟩, dir)
    -- Back transitions
    | Face.Back, Direction.Up =>
        (⟨Face.Top, n - 1 - u, n - 1⟩, Direction.Down)
    | Face.Back, Direction.Down =>
        (⟨Face.Bottom, n - 1 - u, 0⟩, Direction.Up)
    | Face.Back, Direction.Left => (⟨Face.Right, n - 1, v⟩, dir)
    | Face.Back, Direction.Right => (⟨Face.Left, 0, v⟩, dir)
    -- Top transitions
    | Face.Top, Direction.Right =>
        (⟨Face.Right, v, n - 1⟩, Direction.Down)
    | Face.Top, Direction.Left =>
        (⟨Face.Left, n - 1 - v, n - 1⟩, Direction.Down)
    | Face.Top, Direction.Up =>
        (⟨Face.Back, n - 1 - u, n - 1⟩, Direction.Down)
    | Face.Top, Direction.Down => (⟨Face.Front, u, n - 1⟩, dir)
    -- Bottom transitions
    | Face.Bottom, Direction.Up => (⟨Face.Front, u, 0⟩, dir)
    | Face.Bottom, Direction.Down =>
        (⟨Face.Back, n - 1 - u, 0⟩, Direction.Up)
    | Face.Bottom, Direction.Left =>
        (⟨Face.Left, v, 0⟩, Direction.Up)
    | Face.Bottom, Direction.Right =>
        (⟨Face.Right, n - 1 - v, 0⟩, Direction.Up)
    -- Right transitions
    | Face.Right, Direction.Left => (⟨Face.Front, n - 1, v⟩, dir)
    | Face.Right, Direction.Right => (⟨Face.Back, 0, v⟩, dir)
    | Face.Right, Direction.Up =>
        (⟨Face.Top, n - 1, u⟩, Direction.Left)
    | Face.Right, Direction.Down =>
        (⟨Face.Bottom, n - 1, n - 1 - u⟩, Direction.Left)
    -- Left transitions
    | Face.Left, Direction.Right => (⟨Face.Front, 0, v⟩, dir)
    | Face.Left, Direction.Left => (⟨Face.Back, n - 1, v⟩, dir)
    | Face.Left, Direction.Up =>
        (⟨Face.Top, 0, n - 1 - u⟩, Direction.Right)
    | Face.Left, Direction.Down =>
        (⟨Face.Bottom, 0, u⟩, Direction.Right)
  else
    (⟨pos.face, u, v⟩, dir)

/-- A position whose two local coordinates lie in `[0, n)`. -/
def inRange (n : Int) (p : Position) : Prop :=
  0 ≤ p.u ∧ p.u < n ∧ 0 ≤ p.v ∧ p.v < n

instance (n : Int) (p : Position) : Decidable (inRange n p) := by
  unfold inRange; infer_instance

/-- Stepping from `p` in direction `dir` leaves the `[0, n)` bounds, i.e.
the resolver takes a transition-table entry rather than a plain step. -/
def crossesSeam (n : Int) (p : Position) (dir : Direction) : Prop :=
  (stepUV p.u p.v dir).1 < 0 ∨ (stepUV p.u p.v dir).1 ≥ n ∨
    (stepUV p.u p.v dir).2 < 0 ∨ (stepUV p.u p.v dir).2 ≥ n

instance (n : Int) (p : Position) (dir : Direction) :
    Decidable (crossesSeam n p dir) := by
  unfold crossesSeam; infer_instance

/-- The 180-degree reverse of a travel direction. -/
def Direction.reverse : Direction → Direction
  | Direction.Up => Direction.Down
  | Direction.Down => Direction.Up
  | Direction.Left => Direction.Right
  | Direction.Right => Direction.Left

/-- One random byte, as produced by `getrandom`. -/
abbrev Byte := Fin 256

/-- The three random bytes one `spawn_food` attempt consumes
(`rng_buf[0]`, `rng_buf[1]`, `rng_buf[2]`). -/
abbrev RngTriple := Byte × Byte × Byte

/-- The `match face_idx` table of `spawn_food`: `rng_buf[0] % 6` selects
the face, with every residue `5` and above falling to `Bottom`. -/
def byteToFace (b : Byte) : Face :=
  match b.val % 6 with
  | 0 => Face.Front
  | 1 => Face.Back
  | 2 => Face.Left
  | 3 => Face.Right
  | 4 => Face.Top
  | _ => Face.Bottom

/-- `(rng_buf[i] as i32) % grid_size`: the byte is non-negative, so Rust's
remainder agrees with `Int.emod`. -/
def byteToCoord (n : Int) (b : Byte) : Int :=
  (b.val : Int) % n

/-- `GameState::spawn_food` from `src/game.rs`, with the fields it reads
(`config.grid_size`, `snake.body`, `food_eaten_count`) passed explicitly
and the `getrandom` bytes supplied as a list of triples, one per attempt.
It returns the new `food` position and `is_prize` flag; `none` models the
retry recursion running out of supplied entropy. -/
def spawn_food (n : Int) (body : List Position) (food_eaten_count : Nat) :
    List RngTriple → Option (Position × Bool)
  | [] => none
  | (b0, b1, b2) :: rest =>
    let face := byteToFace b0
    let u := byteToCoord n b1
    let v := byteToCoord n b2
    let new_pos : Position := ⟨face, u, v⟩
    if new_pos ∈ body then
      spawn_food n body food_eaten_count rest
    else
      some (new_pos, decide ((food_eaten_count + 1) % 5 = 0))

/-- `GameState::new(grid_size)` from `src/game.rs`: snake of length 1 at
the centre of the `Front` face travelling `Up`, zero score, then an
initial `spawn_food`. -/
def GameState.new (grid_size : Int) (rng : List RngTriple) :
    Option GameState :=
  let start_pos : Position :=
    ⟨Face.Front, grid_size / 2, grid_size / 2⟩
  let snake : Snake :=
    { body := [start_pos], direction := Direction.Up,
      next_direction := Direction.Up }
  let game : GameState :=
    { snake := snake, food := start_pos, is_prize := false, score := 0,
      high_score := 0, food_eaten_count := 0, game_over := false,
      config := ⟨grid_size⟩ }
  match spawn_food grid_size game.snake.body game.food_eaten_count rng with
  | none => none
  | some (fp, pz) => some { game with food := fp, is_prize := pz }

/-- `GameState::update` from `src/game.rs`.  The random bytes for a
possible food respawn are passed in; `none` models a panic (empty body)
or `spawn_food` exhausting its entropy list — neither occurs in states
reachable from `GameState.new`. -/
def update (s : GameState) (rng : List RngTriple) :
    Option (GameState × GameEvent) :=
  if s.game_over then
    some (s, GameEvent.None)
  else
    match s.snake.body with
    | [] => none
    | h :: t =>
      let dir0 := s.snake.next_direction
      let r := calculate_next_position s.config.grid_size h dir0
      let new_pos := r.1
      let new_dir := r.2
      let growing := new_pos = s.food
      if new_pos ∈ h :: t ∧
          ¬(¬growing ∧ new_pos = (h :: t).getLast (List.cons_ne_nil h t)) then
        some ({ s with
                  snake := { s.snake with direction := dir0 },
                  game_over := true },
              GameEvent.GameOver)
      else
        let body2 := new_pos :: h :: t
        if growing then
          let score2 := s.score + (if s.is_prize then 5 else 1)
          let high2 := if score2 > s.high_score then score2 else s.high_score
          let count2 := s.food_eaten_count + 1
          let event :=
            if s.is_prize then GameEvent.EatPrize else GameEvent.Eat
          match spawn_food s.config.grid_size body2 count2 rng with
          | none => none
          | some (fp, pz) =>
            some ({ s with
                      snake := { body := body2, direction := new_dir,
                                 next_direction := new_dir },
                      food := fp, is_prize := pz, score := score2,
                      high_score := high2, food_eaten_count := count2 },
                  event)
        else
          some ({ s with
                    snake := { body := body2.dropLast, direction := new_dir,
                               next_direction := new_dir } },
                GameEvent.None)

/-- Iterated `update`, one entropy list per tick; events are discarded. -/
def updateN (s : GameState) : List (List RngTriple) → Option GameState
  | [] => some s
  | r :: rs =>
    match update s r with
    | none => none
    | some (s', _) => updateN s' rs

/-- Game states reachable in a play session: an initial `GameState.new`,
ticks of `update`, the caller writing a buffered direction into
`next_direction` (`lib.rs` key/swipe handlers), and the caller's restart,
which builds a fresh `GameState` and carries the previous high score over
(`lib.rs` handling of the restart key). -/
inductive Reachable : GameState → Prop
  | init (n : Int) (rng : List RngTriple) (s : GameState) :
      GameState.new n rng = some s → Reachable s
  | step (s : GameState) (rng : List RngTriple) (s' : GameState)
      (e : GameEvent) : Reachable s → update s rng = some (s', e) →
      Reachable s'
  | turn (s : GameState) (d : Direction) : Reachable s →
      Reachable { s with snake := { s.snake with next_direction := d } }
  | restart (s : GameState) (n : Int) (rng : List RngTriple)
      (s0 : GameState) : Reachable s → GameState.new n rng = some s0 →
      Reachable { s0 with high_score := s.high_score }

/-- Invariant maintained by every reachable state: the current food's
prize flag agrees with the eaten-food counter (the food on the board is
the `(count + 1)`-st to be eaten, flagged prize iff that index is a
multiple of 5), and the score never exceeds the high score. -/
def ScoreInv (s : GameState) : Prop :=
  s.is_prize = decide ((s.food_eaten_count + 1) % 5 = 0) ∧
  s.score ≤ s.high_score

/-- The state `GameState.new 2 [(0, 1, 0)]` produces: a length-1 snake at
the centre of a 2-cell `Front` face with food at `Front(1, 0)`. -/
def demoStart : GameState :=
  { snake := { body := [⟨Face.Front, 1, 1⟩], direction := Direction.Up,
               next_direction := Direction.Up },
    food := ⟨Face.Front, 1, 0⟩, is_prize := false, score := 0,
    high_score := 0, food_eaten_count := 0, game_over := false,
    config := ⟨2⟩ }

/-- `demoStart` after the caller buffers a `Down` turn. -/
def demoTurned : GameState :=
  { demoStart with
      snake := { demoStart.snake with next_direction := Direction.Down } }

/-- `demoTurned` after one tick: the head moves onto the food at
`Front(1, 0)`, the snake grows to length 2, and fresh food spawns at
`Front(0, 0)` from the byte triple `(0, 0, 0)`. -/
def demoEaten : GameState :=
  { snake := { body := [⟨Face.Front, 1, 0⟩, ⟨Face.Front, 1, 1⟩],
               direction := Direction.Down,
               next_direction := Direction.Down },
    food := ⟨Face.Front, 0, 0⟩, is_prize := false, score := 1,
    high_score := 1, food_eaten_count := 1, game_over := false,
    config := ⟨2⟩ }

/-- A grid-4 state whose length-2 snake is about to step onto its own
tail cell `Front(1, 2)` while the food sits elsewhere: the tail-chase
exception applies. -/
def demoTailChase : GameState :=
  { snake := { body := [⟨Face.Front, 1, 1⟩, ⟨Face.Front, 1, 2⟩],
               direction := Direction.Up, next_direction := Direction.Up },
    food := ⟨Face.Front, 0, 0⟩, is_prize := false, score := 0,
    high_score := 0, food_eaten_count := 0, game_over := false,
    config := ⟨4⟩ }

/-- A finished game: `demoStart` with the game-over flag set. -/
def demoOver : GameState :=
  { demoStart with game_over := true }

set_option maxHeartbeats 1600000 in
/-- C1.  Resolver reciprocity: for every grid size `n ≥ 1`, every face,
every direction `d`, and every in-range cell `p` whose step in `d` crosses
a face boundary, applying `calculate_next_position` to the crossing's
result `(p', d')` with the reverse of `d'` returns to the original cell
`p`, with resulting direction the reverse of `d` — round-trip closure
across every one of the 24 table entries. -/
theorem resolver_reciprocity (n : Int) (p : Position) (d : Direction)
    (hn : 1 ≤ n) (hp : inRange n p) (hc : crossesSeam n p d) :
    calculate_next_position n (calculate_next_position n p d).1
      (calculate_next_position n p d).2.reverse = (p, d.reverse) := by
  obtain ⟨f, u, v⟩ := p
  obtain ⟨hu0, hun, hv0, hvn⟩ := hp
  cases f <;> cases d <;>
    (simp only [crossesSeam, stepUV] at hc;
     simp only [calculate_next_position, stepUV, Direction.reverse];
     split_ifs <;> simp_all [Prod.mk.injEq, Position.mk.injEq] <;> omega)

/-- Witness for C1: the grid-16 `Top`-going-`Up` seam, round-tripped. -/
theorem resolver_reciprocity_witness :
    (1 : Int) ≤ 16 ∧ inRange 16 ⟨Face.Top, 5, 15⟩ ∧
    crossesSeam 16 ⟨Face.Top, 5, 15⟩ Direction.Up ∧
    calculate_next_position 16
      (calculate_next_position 16 ⟨Face.Top, 5, 15⟩ Direction.Up).1
      (calculate_next_position 16 ⟨Face.Top, 5, 15⟩ Direction.Up).2.reverse =
      (⟨Face.Top, 5, 15⟩, Direction.Up.reverse) :=
  ⟨by decide, by decide, by decide,
    resolver_reciprocity 16 ⟨Face.Top, 5, 15⟩ Direction.Up
      (by decide) (by decide) (by decide)⟩

/-- C2.  Resolver totality: for every grid size `n ≥ 1`, every face, every
direction, and every in-range position, `calculate_next_position` returns
a position whose coordinates are again in `[0, n)`.  (Totality and
determinism themselves are structural: the embedding is a total pure
function covering all 24 face/direction table entries.) -/
theorem resolver_totality (n : Int) (p : Position) (d : Direction)
    (hn : 1 ≤ n) (hp : inRange n p) :
    inRange n (calculate_next_position n p d).1 := by
  obtain ⟨f, u, v⟩ := p
  obtain ⟨hu0, hun, hv0, hvn⟩ := hp
  cases f <;> cases d <;>
    (simp only [calculate_next_position, stepUV, inRange];
     split_ifs <;> simp_all <;> omega)

/-- Witness for C2 at a corner cell of a 1-cell grid. -/
theorem resolver_totality_witness :
    (1 : Int) ≤ 1 ∧ inRange 1 ⟨Face.Bottom, 0, 0⟩ ∧
    inRange 1 (calculate_next_position 1 ⟨Face.Bottom, 0, 0⟩
      Direction.Left).1 :=
  ⟨by decide, by decide,
    resolver_totality 1 ⟨Face.Bottom, 0, 0⟩ Direction.Left
      (by decide) (by decide)⟩

/-- C3.  In-bounds step: when the one-cell step stays inside `[0, n)` on
both axes, the resolver keeps the face and the direction and changes
exactly one coordinate by one (`v + 1` for `Up`, `v - 1` for `Down`,
`u - 1` for `Left`, `u + 1` for `Right`), leaving the other unchanged. -/
theorem resolver_in_bounds_step (n : Int) (p : Position) (d : Direction)
    (hp : inRange n p) (h : ¬ crossesSeam n p d) :
    (calculate_next_position n p d).2 = d ∧
    (calculate_next_position n p d).1.face = p.face ∧
    ((calculate_next_position n p d).1.u,
      (calculate_next_position n p d).1.v) =
      (match d with
       | Direction.Up => (p.u, p.v + 1)
       | Direction.Down => (p.u, p.v - 1)
       | Direction.Left => (p.u - 1, p.v)
       | Direction.Right => (p.u + 1, p.v)) := by
  obtain ⟨f, u, v⟩ := p
  simp only [crossesSeam, stepUV] at h
  cases d <;>
    (simp only [calculate_next_position, stepUV];
     rw [if_neg (by push_neg at h ⊢; omega)] <;> simp_all)

/-- Witness for C3: an interior cell of the grid-16 `Front` face. -/
theorem resolver_in_bounds_step_witness :
    inRange 16 ⟨Face.Front, 5, 5⟩ ∧
    ¬ crossesSeam 16 ⟨Face.Front, 5, 5⟩ Direction.Up ∧
    ((calculate_next_position 16 ⟨Face.Front, 5, 5⟩ Direction.Up).2 =
        Direction.Up ∧
      (calculate_next_position 16 ⟨Face.Front, 5, 5⟩ Direction.Up).1.face =
        Face.Front ∧
      ((calculate_next_position 16 ⟨Face.Front, 5, 5⟩ Direction.Up).1.u,
        (calculate_next_position 16 ⟨Face.Front, 5, 5⟩ Direction.Up).1.v) =
        (5, 5 + 1)) :=
  ⟨by decide, by decide,
    resolver_in_bounds_step 16 ⟨Face.Front, 5, 5⟩ Direction.Up
      (by decide) (by decide)⟩

/-- C4.  Concrete grid-16 scenario: `Front(5, 15)` moving `Up` crosses to
`Top(5, 0)` with direction still `Up`, and `Top(5, 15)` moving `Up`
crosses to `Back(10, 15)` with direction `Down`. -/
theorem resolver_scenario_grid16 :
    calculate_next_position 16 ⟨Face.Front, 5, 15⟩ Direction.Up =
      (⟨Face.Top, 5, 0⟩, Direction.Up) ∧
    calculate_next_position 16 ⟨Face.Top, 5, 15⟩ Direction.Up =
      (⟨Face.Back, 10, 15⟩, Direction.Down) := by
  constructor <;> rfl

/-- `spawn_food`'s contract: when it returns, the new food cell avoids
every cell of the body it was given, and the prize flag is set exactly
when the next food index is a multiple of 5. -/
lemma spawn_food_spec (n : Int) (body : List Position) (cnt : Nat)
    (rng : List RngTriple) (p : Position) (pz : Bool)
    (h : spawn_food n body cnt rng = some (p, pz)) :
    p ∉ body ∧ pz = decide ((cnt + 1) % 5 = 0) := by
  induction rng with
  | nil => simp [spawn_food] at h
  | cons trip rest ih =>
    obtain ⟨b0, b1, b2⟩ := trip
    rw [spawn_food] at h
    split_ifs at h with hmem
    · exact ih h
    · simp only [Option.some.injEq, Prod.mk.injEq] at h
      obtain ⟨hp, hpz⟩ := h
      subst hp
      exact ⟨hmem, hpz.symm⟩

/-- Field values of a freshly constructed `GameState`. -/
lemma new_spec (n : Int) (rng : List RngTriple) (s : GameState)
    (h : GameState.new n rng = some s) :
    s.snake.body = [⟨Face.Front, n / 2, n / 2⟩] ∧
    s.is_prize = decide ((0 + 1) % 5 = 0) ∧ s.score = 0 ∧
    s.high_score = 0 ∧ s.food_eaten_count = 0 ∧ s.game_over = false := by
  simp only [GameState.new] at h
  split at h
  · exact absurd h (by simp)
  · rename_i fp pz hspawn
    simp only [Option.some.injEq] at h
    subst h
    have := spawn_food_spec _ _ _ _ _ _ hspawn
    simpa using this.2

/-- Exhaustive description of one successful `update` call: either the
game was already over and nothing changed, or the body was non-empty and
exactly one of the three live branches (fatal collision, growing move,
plain move) produced the result. -/
lemma update_cases (s : GameState) (rng : List RngTriple)
    (s' : GameState) (e : GameEvent)
    (hu : update s rng = some (s', e)) :
    (s.game_over = true ∧ s' = s ∧ e = GameEvent.None) ∨
    (∃ hd tl, s.game_over = false ∧ s.snake.body = hd :: tl ∧
      ((e = GameEvent.GameOver ∧
        s' = { s with
                 snake := { s.snake with
                              direction := s.snake.next_direction },
                 game_over := true }) ∨
       ((calculate_next_position s.config.grid_size hd
           s.snake.next_direction).1 = s.food ∧
        ∃ fp pz,
          spawn_food s.config.grid_size
            ((calculate_next_position s.config.grid_size hd
                s.snake.next_direction).1 :: hd :: tl)
            (s.food_eaten_count + 1) rng = some (fp, pz) ∧
          s' = { s with
                   snake := { body :=
                                (calculate_next_position s.config.grid_size
                                  hd s.snake.next_direction).1 :: hd :: tl,
                              direction :=
                                (calculate_next_position s.config.grid_size
                                  hd s.snake.next_direction).2,
                              next_direction :=
                                (calculate_next_position s.config.grid_size
                                  hd s.snake.next_direction).2 },
                   food := fp, is_prize := pz,
                   score := s.score + (if s.is_prize then 5 else 1),
                   high_score :=
                     if s.score + (if s.is_prize then 5 else 1) >
                         s.high_score then
                       s.score + (if s.is_prize then 5 else 1)
                     else s.high_score,
                   food_eaten_count := s.food_eaten_count + 1 } ∧
          e = (if s.is_prize then GameEvent.EatPrize else GameEvent.Eat)) ∨
       ((calculate_next_position s.config.grid_size hd
           s.snake.next_direction).1 ≠ s.food ∧
        s' = { s with
                 snake := { body :=
                              ((calculate_next_position s.config.grid_size
                                  hd s.snake.next_direction).1 ::
                                hd :: tl).dropLast,
                            direction :=
                              (calculate_next_position s.config.grid_size
                                hd s.snake.next_direction).2,
                            next_direction :=
                              (calculate_next_position s.config.grid_size
                                hd s.snake.next_direction).2 } } ∧
        e = GameEvent.None))) := by
  by_cases hgo : s.game_over = true
  · left
    unfold update at hu
    rw [if_pos hgo] at hu
    simp only [Option.some.injEq, Prod.mk.injEq] at hu
    exact ⟨hgo, hu.1.symm, hu.2.symm⟩
  · right
    replace hgo : s.game_over = false := by simpa using hgo
    unfold update at hu
    rw [if_neg (by simp [hgo])] at hu
    rcases hbody : s.snake.body with _ | ⟨hd, tl⟩
    · rw [hbody] at hu
      simp at hu
    · simp only [hbody] at hu
      refine ⟨hd, tl, hgo, rfl, ?_⟩
      simp only [hbody]
      by_cases hcol : (calculate_next_position s.config.grid_size hd
          s.snake.next_direction).1 ∈ hd :: tl ∧
          ¬(¬(calculate_next_position s.config.grid_size hd
                s.snake.next_direction).1 = s.food ∧
            (calculate_next_position s.config.grid_size hd
              s.snake.next_direction).1 =
              (hd :: tl).getLast (List.cons_ne_nil hd tl))
      · rw [if_pos hcol] at hu
        simp only [Option.some.injEq, Prod.mk.injEq] at hu
        exact Or.inl ⟨hu.2.symm, hu.1.symm⟩
      · rw [if_neg hcol] at hu
        by_cases hgrow : (calculate_next_position s.config.grid_size hd
            s.snake.next_direction).1 = s.food
        · rw [if_pos hgrow] at hu
          split at hu
          · exact absurd hu (by simp)
          · rename_i fp pz hspawn
            simp only [Option.some.injEq, Prod.mk.injEq] at hu
            refine Or.inr (Or.inl ⟨hgrow, fp, pz, hspawn, hu.1.symm, ?_⟩)
            by_cases hpz : s.is_prize <;> simp [hpz] at hu ⊢ <;>
              exact hu.2.symm
        · rw [if_neg hgrow] at hu
          simp only [Option.some.injEq, Prod.mk.injEq] at hu
          exact Or.inr (Or.inr ⟨hgrow, hu.1.symm, hu.2.symm⟩)

/-- One `update` tick preserves `ScoreInv`. -/
lemma update_scoreInv (s : GameState) (rng : List RngTriple)
    (s' : GameState) (e : GameEvent) (hs : ScoreInv s)
    (hu : update s rng = some (s', e)) : ScoreInv s' := by
  rcases update_cases s rng s' e hu with
    ⟨_, hss, _⟩ | ⟨hd, tl, hgo, hb, hcase⟩
  · exact hss ▸ hs
  · rcases hcase with ⟨_, hss⟩ | ⟨hgrow, fp, pz, hspawn, hss, he⟩ |
      ⟨hgrow, hss, he⟩
    · subst hss
      exact ⟨hs.1, hs.2⟩
    · subst hss
      have hsp := spawn_food_spec _ _ _ _ _ _ hspawn
      refine ⟨by simpa using hsp.2, ?_⟩
      have := hs.2
      simp only
      split_ifs <;> omega
    · subst hss
      exact ⟨hs.1, hs.2⟩

/-- Every reachable state satisfies `ScoreInv`. -/
lemma reachable_scoreInv (s : GameState) (h : Reachable s) : ScoreInv s := by
  induction h with
  | init n rng s hnew =>
    obtain ⟨_, hpz, hsc, hhs, hcnt, _⟩ := new_spec n rng s hnew
    exact ⟨by rw [hpz, hcnt], by omega⟩
  | step s rng s' e hr hu ih => exact update_scoreInv s rng s' e ih hu
  | turn s d hr ih => exact ⟨ih.1, ih.2⟩
  | restart s n rng s0 hr hnew ih =>
    obtain ⟨_, hpz, hsc, hhs, hcnt, _⟩ := new_spec n rng s0 hnew
    exact ⟨by simpa [hcnt] using hpz, by simp [hsc]⟩

/-- C5.  Self-collision rule with tail-chase exception and atomicity:
from a running state with body `hd :: tl`, if the candidate head `c`
computed by the resolver lies on the body, then unless `c` is the current
tail cell and differs from the food, `update` sets game-over, returns
`GameOver` and leaves body, score, food, high score and eaten-food count
untouched; when `c` is the tail and the snake is not growing the move
proceeds as a legal non-growing move with no game-over. -/
theorem self_collision_rule (s : GameState) (rng : List RngTriple)
    (hd : Position) (tl : List Position)
    (hgo : s.game_over = false) (hb : s.snake.body = hd :: tl) :
    letI r := calculate_next_position s.config.grid_size hd
      s.snake.next_direction
    letI c := r.1
    letI tail := (hd :: tl).getLast (List.cons_ne_nil hd tl)
    (c ∈ hd :: tl → (c = s.food ∨ c ≠ tail) →
      update s rng =
        some ({ s with
                  snake := { s.snake with
                               direction := s.snake.next_direction },
                  game_over := true },
              GameEvent.GameOver)) ∧
    (c ∈ hd :: tl → c ≠ s.food → c = tail →
      update s rng =
        some ({ s with
                  snake := { body := (c :: hd :: tl).dropLast,
                             direction := r.2,
                             next_direction := r.2 } },
              GameEvent.None)) := by
  constructor
  · intro hmem hcond
    unfold update
    rw [if_neg (by simp [hgo])]
    simp only [hb]
    rw [if_pos]
    constructor
    · exact hmem
    · intro hcontra
      rcases hcond with hfood | htail
      · exact hcontra.1 hfood
      · exact htail hcontra.2
  · intro hmem hfood htail
    unfold update
    rw [if_neg (by simp [hgo])]
    simp only [hb]
    rw [if_neg]
    · rw [if_neg hfood]
    · intro hcontra
      exact hcontra.2 ⟨hfood, htail⟩

/-- Witness for C5: `demoTailChase` steps onto its own tail legally. -/
theorem self_collision_rule_witness :
    update demoTailChase [] =
      some ({ demoTailChase with
                snake := { body := [⟨Face.Front, 1, 2⟩, ⟨Face.Front, 1, 1⟩],
                           direction := Direction.Up,
                           next_direction := Direction.Up } },
            GameEvent.None) :=
  (self_collision_rule demoTailChase [] ⟨Face.Front, 1, 1⟩
    [⟨Face.Front, 1, 2⟩] rfl rfl).2 (by decide) (by decide) (by decide)

/-- C6.  Length dynamics: a successful non-`GameOver` tick conserves the
body length when the candidate head is not the food, and lengthens the
body by exactly 1 when it is, in which case the freshly spawned food cell
differs from every cell of the new body. -/
theorem length_dynamics (s : GameState) (rng : List RngTriple)
    (s' : GameState) (e : GameEvent) (hd : Position) (tl : List Position)
    (hgo : s.game_over = false) (hb : s.snake.body = hd :: tl)
    (hu : update s rng = some (s', e)) (hne : e ≠ GameEvent.GameOver) :
    letI c := (calculate_next_position s.config.grid_size hd
      s.snake.next_direction).1
    (c ≠ s.food → s'.snake.body.length = s.snake.body.length) ∧
    (c = s.food → s'.snake.body.length = s.snake.body.length + 1 ∧
      s'.food ∉ s'.snake.body) := by
  unfold update at hu
  rw [if_neg (by simp [hgo])] at hu
  simp only [hb] at hu
  by_cases hcol : (calculate_next_position s.config.grid_size hd
      s.snake.next_direction).1 ∈ hd :: tl ∧
      ¬(¬(calculate_next_position s.config.grid_size hd
            s.snake.next_direction).1 = s.food ∧
        (calculate_next_position s.config.grid_size hd
          s.snake.next_direction).1 =
          (hd :: tl).getLast (List.cons_ne_nil hd tl))
  · rw [if_pos hcol] at hu
    simp only [Option.some.injEq, Prod.mk.injEq] at hu
    exact absurd hu.2.symm hne
  · rw [if_neg hcol] at hu
    by_cases hgrow : (calculate_next_position s.config.grid_size hd
        s.snake.next_direction).1 = s.food
    · rw [if_pos hgrow] at hu
      split at hu
      · exact absurd hu (by simp)
      · rename_i fp pz hspawn
        simp only [Option.some.injEq, Prod.mk.injEq] at hu
        obtain ⟨hs', he⟩ := hu
        subst hs'
        constructor
        · intro hne'; exact absurd hgrow hne'
        · intro _
          refine ⟨by simp [hb], ?_⟩
          have := spawn_food_spec _ _ _ _ _ _ hspawn
          simpa using this.1
    · rw [if_neg hgrow] at hu
      simp only [Option.some.injEq, Prod.mk.injEq] at hu
      obtain ⟨hs', he⟩ := hu
      subst hs'
      constructor
      · intro _
        simp [hb]
      · intro hgrow'; exact absurd hgrow' hgrow

/-- Witness for C6: `demoTurned` eats the food at `Front(1, 0)` and grows
from length 1 to length 2, with the new food off the body. -/
theorem length_dynamics_witness :
    demoEaten.snake.body.length = demoTurned.snake.body.length + 1 ∧
    demoEaten.food ∉ demoEaten.snake.body :=
  (length_dynamics demoTurned [(0, 0, 0)] demoEaten GameEvent.Eat
    ⟨Face.Front, 1, 1⟩ [] rfl rfl (by decide) (by decide)).2 (by decide)

/-- C7.  Score and prize cadence along every play sequence from
`GameState.new`: over one successful tick the high score never decreases
and always equals the maximum of its previous value and the new score,
and an eating tick increments the eaten counter, scoring 5 with an
`EatPrize` event when that counter becomes a multiple of 5 (the prize
cadence) and 1 with an `Eat` event otherwise. -/
theorem score_prize_cadence (s : GameState) (hreach : Reachable s)
    (rng : List RngTriple) (s' : GameState) (e : GameEvent)
    (hu : update s rng = some (s', e)) :
    s.high_score ≤ s'.high_score ∧
    s'.high_score = max s.high_score s'.score ∧
    ((e = GameEvent.Eat ∨ e = GameEvent.EatPrize) →
      s'.food_eaten_count = s.food_eaten_count + 1 ∧
      (if s'.food_eaten_count % 5 = 0
       then e = GameEvent.EatPrize ∧ s'.score = s.score + 5
       else e = GameEvent.Eat ∧ s'.score = s.score + 1)) := by
  have hinv := reachable_scoreInv s hreach
  rcases update_cases s rng s' e hu with
    ⟨_, hss, hee⟩ | ⟨hd, tl, hgo, hb, hcase⟩
  · subst hss; subst hee
    refine ⟨le_refl _, ?_, by simp⟩
    have := hinv.2
    omega
  · rcases hcase with ⟨hee, hss⟩ | ⟨hgrow, fp, pz, hspawn, hss, hee⟩ |
      ⟨hgrow, hss, hee⟩
    · subst hss; subst hee
      refine ⟨le_refl _, ?_, by simp⟩
      have := hinv.2
      simp only
      omega
    · subst hss
      have hprz := hinv.1
      constructor
      · simp only
        split_ifs <;> omega
      constructor
      · simp only
        split_ifs <;> omega
      · intro _
        refine ⟨rfl, ?_⟩
        simp only
        by_cases hpz : s.is_prize
        · have h5 : (s.food_eaten_count + 1) % 5 = 0 := by
            have := hprz; rw [hpz] at this
            simpa using this.symm
          rw [if_pos h5]
          subst hee
          simp [hpz]
        · have h5 : ¬ (s.food_eaten_count + 1) % 5 = 0 := by
            intro hc
            have := hprz
            rw [hc] at this
            simp [hpz] at this
          rw [if_neg h5]
          subst hee
          simp [hpz, Bool.not_eq_true] at *
    · subst hss; subst hee
      refine ⟨le_refl _, ?_, by simp⟩
      have := hinv.2
      simp only
      omega

/-- Witness for C7: the reachable state `demoTurned` eats its first food,
scoring 1 with an `Eat` event and raising the high score to 1. -/
theorem score_prize_cadence_witness :
    demoTurned.high_score ≤ demoEaten.high_score ∧
    demoEaten.high_score = max demoTurned.high_score demoEaten.score ∧
    ((GameEvent.Eat = GameEvent.Eat ∨ GameEvent.Eat = GameEvent.EatPrize) →
      demoEaten.food_eaten_count = demoTurned.food_eaten_count + 1 ∧
      (if demoEaten.food_eaten_count % 5 = 0
       then GameEvent.Eat = GameEvent.EatPrize ∧
         demoEaten.score = demoTurned.score + 5
       else GameEvent.Eat = GameEvent.Eat ∧
         demoEaten.score = demoTurned.score + 1)) :=
  score_prize_cadence demoTurned
    (Reachable.turn demoStart Direction.Down
      (Reachable.init 2 [(0, 1, 0)] demoStart (by decide)))
    [(0, 0, 0)] demoEaten GameEvent.Eat (by decide)

/-- C8.  Terminal stickiness: once the game-over flag is set, a single
`update` returns `None` and the identical state, and any number of
repeated `update` calls (with arbitrary entropy at each tick) leaves the
entire state unchanged. -/
theorem terminal_stickiness (s : GameState) (h : s.game_over = true) :
    (∀ rng, update s rng = some (s, GameEvent.None)) ∧
    (∀ rngs, updateN s rngs = some s) := by
  have h1 : ∀ rng, update s rng = some (s, GameEvent.None) := by
    intro rng
    unfold update
    rw [if_pos h]
  refine ⟨h1, ?_⟩
  intro rngs
  induction rngs with
  | nil => rfl
  | cons r rs ih => simp [updateN, h1 r, ih]

/-- Witness for C8: the finished state `demoOver` is frozen across one
tick and across two iterated ticks. -/
theorem terminal_stickiness_witness :
    update demoOver [] = some (demoOver, GameEvent.None) ∧
    updateN demoOver [[], []] = some demoOver :=
  ⟨(terminal_stickiness demoOver rfl).1 [],
    (terminal_stickiness demoOver rfl).2 [[], []]⟩

/-- C10.  The snake body is never empty: `GameState.new` produces a body
of length 1, and every state reachable from `GameState.new` (through any
sequence of ticks, buffered turns and restarts) keeps the body length at
least 1, so the `unwrap` in `Snake::head` and the tail lookup in
`update` cannot panic. -/
theorem body_never_empty :
    (∀ (n : Int) (rng : List RngTriple) (s : GameState),
      GameState.new n rng = some s → s.snake.body.length = 1) ∧
    (∀ s : GameState, Reachable s → 1 ≤ s.snake.body.length) := by
  have h1 : ∀ (n : Int) (rng : List RngTriple) (s : GameState),
      GameState.new n rng = some s → s.snake.body.length = 1 := by
    intro n rng s h
    rw [(new_spec n rng s h).1]
    rfl
  refine ⟨h1, ?_⟩
  intro s h
  induction h with
  | init n rng s hnew => rw [h1 n rng s hnew]
  | step s rng s' e hr hu ih =>
    rcases update_cases s rng s' e hu with
      ⟨_, hss, _⟩ | ⟨hd, tl, hgo, hb, hcase⟩
    · exact hss ▸ ih
    · rcases hcase with ⟨_, hss⟩ | ⟨_, fp, pz, _, hss, _⟩ | ⟨_, hss, _⟩ <;>
        subst hss <;> simp [hb, List.length_dropLast]
  | turn s d hr ih => simpa using ih
  | restart s n rng s0 hr hnew ih => simp [h1 n rng s0 hnew]

/-- Witness for C10: the concrete construction `GameState.new 2 [(0,1,0)]`
yields `demoStart`, whose body has length 1. -/
theorem body_never_empty_witness :
    demoStart.snake.body.length = 1 :=
  body_never_empty.1 2 [(0, 1, 0)] demoStart (by decide)

/-- How many numbers below `m` leave remainder `j` on division by `N`:
`m / N` full blocks plus one more when `j` falls inside the partial
block. -/
lemma count_mod_range (N j : Nat) (hN : 0 < N) (hj : j < N) :
    ∀ m, ((Finset.range m).filter (fun b => b % N = j)).card
      = m / N + if j < m % N then 1 else 0 := by
  intro m
  induction m with
  | zero => simp
  | succ m ih =>
    rw [Finset.range_succ, Finset.filter_insert]
    have hmod : m % N < N := Nat.mod_lt _ hN
    have hdm : N * (m / N) + m % N = m := Nat.div_add_mod m N
    by_cases hcarry : m % N + 1 = N
    · have hexp : N * (m / N + 1) = N * (m / N) + N := Nat.mul_succ N (m / N)
      have hrepr : m + 1 = N * (m / N + 1) := by omega
      have h1 : (m + 1) % N = 0 := by
        rw [hrepr, Nat.mul_mod_right]
      have h2 : (m + 1) / N = m / N + 1 := by
        rw [hrepr, Nat.mul_div_cancel_left _ hN]
      by_cases hj2 : m % N = j
      · rw [if_pos hj2, Finset.card_insert_of_not_mem (by simp), ih, h1, h2]
        split_ifs <;> omega
      · rw [if_neg hj2, ih, h1, h2]
        split_ifs <;> omega
    · have hlt : m % N + 1 < N := by omega
      have hrepr : m + 1 = N * (m / N) + (m % N + 1) := by omega
      have h1 : (m + 1) % N = m % N + 1 := by
        rw [hrepr, Nat.mul_add_mod, Nat.mod_eq_of_lt hlt]
      have h2 : (m + 1) / N = m / N := by
        rw [hrepr, Nat.mul_add_div hN, Nat.div_eq_of_lt hlt, Nat.add_zero]
      by_cases hj2 : m % N = j
      · rw [if_pos hj2, Finset.card_insert_of_not_mem (by simp), ih, h1, h2]
        split_ifs <;> omega
      · rw [if_neg hj2, ih, h1, h2]
        split_ifs <;> omega

/-- Counting bytes satisfying a predicate on their value is counting the
values below 256. -/
lemma filter_univ_byte_card (p : Nat → Prop) [DecidablePred p] :
    ((Finset.univ : Finset Byte).filter (fun b => p b.val)).card =
    ((Finset.range 256).filter p).card := by
  refine Finset.card_nbij (fun b => b.val) ?_ ?_ ?_
  · intro b hb
    simp only [Finset.mem_filter, Finset.mem_univ, true_and] at hb
    simp [Finset.mem_filter, Finset.mem_range, b.isLt, hb]
  · intro b _ b' _ h
    exact Fin.val_injective h
  · intro x hx
    simp only [Finset.coe_filter, Finset.mem_range, Set.mem_setOf_eq,
      Finset.mem_coe, Finset.mem_filter] at hx
    exact ⟨⟨x, hx.1⟩, by simp [hx.2], rfl⟩

/-- `byteToCoord` on a natural grid size is the byte's value modulo the
grid size. -/
lemma byteToCoord_eq_iff (N j : Nat) (b : Byte) :
    byteToCoord (N : Int) b = (j : Int) ↔ b.val % N = j := by
  unfold byteToCoord
  rw [← Int.natCast_mod]
  exact Nat.cast_inj

set_option maxRecDepth 10000 in
/-- C9, counterexample.  The face mapping of `spawn_food` is not uniform
over the 256 values of the first random byte: 43 byte values yield
`Front` but only 42 yield `Top`, refuting the claim that each of the 6
faces is produced by equally many of the 256 first-byte values. -/
theorem food_sampling_uniform_counterexample :
    ((Finset.univ : Finset Byte).filter
      (fun b => byteToFace b = Face.Front)).card = 43 ∧
    ((Finset.univ : Finset Byte).filter
      (fun b => byteToFace b = Face.Top)).card = 42 ∧
    ((Finset.univ : Finset Byte).filter
      (fun b => byteToFace b = Face.Front)).card ≠
    ((Finset.univ : Finset Byte).filter
      (fun b => byteToFace b = Face.Top)).card := by
  decide

set_option maxRecDepth 10000 in
/-- C9, amended.  Exact distribution of `spawn_food`'s byte-to-cell
mapping before the occupancy check: the faces `Front`, `Back`, `Left`,
`Right` each arise from 43 of the 256 first-byte values and `Top`,
`Bottom` from 42 each (modulo bias of `% 6`); a coordinate `j ∈ [0, N)`
arises from `256 / N + 1` byte values when `j < 256 % N` and from
`256 / N` otherwise; hence the coordinates are equidistributed exactly
when `N` divides 256 (e.g. at the shipped grid size 16), and the faces
never are. -/
theorem food_sampling_bias :
    (((Finset.univ : Finset Byte).filter
        (fun b => byteToFace b = Face.Front)).card = 43 ∧
     ((Finset.univ : Finset Byte).filter
        (fun b => byteToFace b = Face.Back)).card = 43 ∧
     ((Finset.univ : Finset Byte).filter
        (fun b => byteToFace b = Face.Left)).card = 43 ∧
     ((Finset.univ : Finset Byte).filter
        (fun b => byteToFace b = Face.Right)).card = 43 ∧
     ((Finset.univ : Finset Byte).filter
        (fun b => byteToFace b = Face.Top)).card = 42 ∧
     ((Finset.univ : Finset Byte).filter
        (fun b => byteToFace b = Face.Bottom)).card = 42) ∧
    (∀ N j : Nat, 0 < N → j < N →
      ((Finset.univ : Finset Byte).filter
        (fun b => byteToCoord (N : Int) b = (j : Int))).card =
        256 / N + if j < 256 % N then 1 else 0) ∧
    (∀ N : Nat, 0 < N →
      ((∀ j k : Nat, j < N → k < N →
          ((Finset.univ : Finset Byte).filter
            (fun b => byteToCoord (N : Int) b = (j : Int))).card =
          ((Finset.univ : Finset Byte).filter
            (fun b => byteToCoord (N : Int) b = (k : Int))).card) ↔
        256 % N = 0)) := by
  have hcoord : ∀ N j : Nat, 0 < N → j < N →
      ((Finset.univ : Finset Byte).filter
        (fun b => byteToCoord (N : Int) b = (j : Int))).card =
        256 / N + if j < 256 % N then 1 else 0 := by
    intro N j hN hj
    have hfeq : (Finset.univ : Finset Byte).filter
        (fun b => byteToCoord (N : Int) b = (j : Int)) =
        (Finset.univ : Finset Byte).filter (fun b => b.val % N = j) :=
      Finset.filter_congr (fun b _ => byteToCoord_eq_iff N j b)
    rw [hfeq, filter_univ_byte_card (fun x => x % N = j),
      count_mod_range N j hN hj 256]
  refine ⟨by decide, hcoord, ?_⟩
  intro N hN
  constructor
  · intro hall
    by_contra h256
    have hk : 256 % N < N := Nat.mod_lt _ hN
    have h0 := hcoord N 0 hN hN
    have h1 := hcoord N (256 % N) hN hk
    have heq := hall 0 (256 % N) hN hk
    rw [h0, h1] at heq
    rw [if_pos (by omega), if_neg (by omega)] at heq
    omega
  · intro h256 j k hj hk
    rw [hcoord N j hN hj, hcoord N k hN hk, h256]
    simp

/-- Witness for C9's amended theorem: at grid size 3, coordinate 0 is hit
by 86 of the 256 byte values (one more than coordinates 1 and 2 get). -/
theorem food_sampling_bias_witness :
    ((Finset.univ : Finset Byte).filter
      (fun b => byteToCoord ((3 : Nat) : Int) b = ((0 : Nat) : Int))).card
      = 86 := by
  rw [food_sampling_bias.2.1 3 0 (by decide) (by decide)]
  decide
